import Mathlib

/-!
Verification development for the skriv desktop backend
(`src/src-tauri/src/lib.rs`).

The file embeds the backend's four components — the launcher installer
(`install_cli`), the startup argument broker (`CliArgs` / `get_cli_args`),
the single-instance coordinator (the `tauri_plugin_single_instance` closure
in `run`), and the menu command router (the menu construction and
`on_menu_event` closure in `run`) — as executable Lean definitions, and
proves the specified properties about them.

Modelling conventions:
  - Rust `String` values are modelled as Lean `String` where they are used
    as opaque tokens (event names, diagnostics, identifiers), and as lists
    of Unicode scalar values (`List Nat`) where the code inspects their
    contents character by character (file contents read by
    `std::fs::read_to_string`).
  - File bytes are `List Nat` (each entry < 256).  `read_to_string`'s
    UTF-8 validation is modelled by an executable strict UTF-8 decoder.
  - Fallible host calls (process spawning, privilege elevation, event
    emission, window lookup) are driven by explicit environment records.
-/

namespace Skriv

/-! ## UTF-8 encoding and strict decoding

`std::fs::read_to_string` (lib.rs line 13) reads raw bytes and fails unless
they are valid UTF-8.  We model the byte level faithfully: `utf8EncodeCp`
encodes one Unicode scalar value, `utf8DecodeOne` consumes one well-formed
scalar value from the front of a byte list (rejecting overlong forms,
surrogates and out-of-range values exactly as Rust's validator does), and
`utf8Decode` decodes a whole byte list, using the byte count as structural
fuel so that the definition evaluates by kernel reduction. -/

def utf8EncodeCp (n : Nat) : List Nat :=
  if n < 0x80 then [n]
  else if n < 0x800 then [0xC0 + n / 64, 0x80 + n % 64]
  else if n < 0x10000 then [0xE0 + n / 4096, 0x80 + n / 64 % 64, 0x80 + n % 64]
  else [0xF0 + n / 262144, 0x80 + n / 4096 % 64, 0x80 + n / 64 % 64, 0x80 + n % 64]

def utf8Encode : List Nat → List Nat
  | [] => []
  | c :: cs => utf8EncodeCp c ++ utf8Encode cs

/-- Continuation of a two-byte sequence with lead byte `b` (`0xC2 ≤ b < 0xE0`). -/
def utf8DecodeTwo (b : Nat) : List Nat → Option (Nat × List Nat)
  | b2 :: bs2 =>
    if 0x80 ≤ b2 ∧ b2 < 0xC0 then
      some ((b - 0xC0) * 64 + (b2 - 0x80), bs2)
    else none
  | [] => none

/-- Continuation of a three-byte sequence with lead byte `b` (`0xE0 ≤ b < 0xF0`);
the guard rejects overlong forms (`< 0x800`) and surrogates. -/
def utf8DecodeThree (b : Nat) : List Nat → Option (Nat × List Nat)
  | b2 :: b3 :: bs3 =>
    if 0x80 ≤ b2 ∧ b2 < 0xC0 ∧ 0x80 ≤ b3 ∧ b3 < 0xC0 ∧
        0x800 ≤ (b - 0xE0) * 4096 + (b2 - 0x80) * 64 + (b3 - 0x80) ∧
        ((b - 0xE0) * 4096 + (b2 - 0x80) * 64 + (b3 - 0x80) < 0xD800 ∨
          0xE000 ≤ (b - 0xE0) * 4096 + (b2 - 0x80) * 64 + (b3 - 0x80)) then
      some ((b - 0xE0) * 4096 + (b2 - 0x80) * 64 + (b3 - 0x80), bs3)
    else none
  | _ => none

/-- Continuation of a four-byte sequence with lead byte `b` (`0xF0 ≤ b < 0xF5`);
the guard rejects overlong forms (`< 0x10000`) and values beyond `0x10FFFF`. -/
def utf8DecodeFour (b : Nat) : List Nat → Option (Nat × List Nat)
  | b2 :: b3 :: b4 :: bs4 =>
    if 0x80 ≤ b2 ∧ b2 < 0xC0 ∧ 0x80 ≤ b3 ∧ b3 < 0xC0 ∧ 0x80 ≤ b4 ∧ b4 < 0xC0 ∧
        0x10000 ≤ (b - 0xF0) * 262144 + (b2 - 0x80) * 4096 + (b3 - 0x80) * 64 + (b4 - 0x80) ∧
        (b - 0xF0) * 262144 + (b2 - 0x80) * 4096 + (b3 - 0x80) * 64 + (b4 - 0x80) < 0x110000 then
      some ((b - 0xF0) * 262144 + (b2 - 0x80) * 4096 + (b3 - 0x80) * 64 + (b4 - 0x80), bs4)
    else none
  | _ => none

def utf8DecodeOne : List Nat → Option (Nat × List Nat)
  | [] => none
  | b :: bs =>
    if b < 0x80 then some (b, bs)
    else if b < 0xC2 then none
    else if b < 0xE0 then utf8DecodeTwo b bs
    else if b < 0xF0 then utf8DecodeThree b bs
    else if b < 0xF5 then utf8DecodeFour b bs
    else none

def utf8DecodeAux : Nat → List Nat → Option (List Nat)
  | _, [] => some []
  | 0, _ :: _ => none
  | fuel + 1, b :: bs =>
    match utf8DecodeOne (b :: bs) with
    | none => none
    | some (c, rest) => (utf8DecodeAux fuel rest).map (fun cs => c :: cs)

/-- Strict UTF-8 decoding of a byte list into Unicode scalar values; `none`
models a `std::io::Error` of kind `InvalidData` from `read_to_string`. -/
def utf8Decode (bs : List Nat) : Option (List Nat) :=
  utf8DecodeAux bs.length bs

theorem utf8DecodeTwo_spec (b : Nat) (bs : List Nat) (c : Nat) (rest : List Nat)
    (hb1 : 0xC2 ≤ b) (hb2 : b < 0xE0)
    (h : utf8DecodeTwo b bs = some (c, rest)) :
    utf8EncodeCp c ++ rest = b :: bs := by
  match bs with
  | [] => simp [utf8DecodeTwo] at h
  | b2 :: bs2 =>
    simp only [utf8DecodeTwo] at h
    split_ifs at h with hc
    simp only [Option.some.injEq, Prod.mk.injEq] at h
    obtain ⟨rfl, rfl⟩ := h
    simp only [utf8EncodeCp]
    rw [if_neg (by omega), if_pos (by omega)]
    simp only [List.cons_append, List.nil_append, List.cons.injEq]
    exact ⟨by omega, by omega, trivial⟩

theorem utf8DecodeThree_spec (b : Nat) (bs : List Nat) (c : Nat) (rest : List Nat)
    (hb1 : 0xE0 ≤ b) (hb2 : b < 0xF0)
    (h : utf8DecodeThree b bs = some (c, rest)) :
    utf8EncodeCp c ++ rest = b :: bs := by
  match bs with
  | [] => simp [utf8DecodeThree] at h
  | [b2] => simp [utf8DecodeThree] at h
  | b2 :: b3 :: bs3 =>
    simp only [utf8DecodeThree] at h
    split_ifs at h with hc
    simp only [Option.some.injEq, Prod.mk.injEq] at h
    obtain ⟨rfl, rfl⟩ := h
    simp only [utf8EncodeCp]
    rw [if_neg (by omega), if_neg (by omega), if_pos (by omega)]
    simp only [List.cons_append, List.nil_append, List.cons.injEq]
    exact ⟨by omega, by omega, by omega, trivial⟩

theorem utf8DecodeFour_spec (b : Nat) (bs : List Nat) (c : Nat) (rest : List Nat)
    (hb1 : 0xF0 ≤ b) (hb2 : b < 0xF5)
    (h : utf8DecodeFour b bs = some (c, rest)) :
    utf8EncodeCp c ++ rest = b :: bs := by
  match bs with
  | [] => simp [utf8DecodeFour] at h
  | [b2] => simp [utf8DecodeFour] at h
  | [b2, b3] => simp [utf8DecodeFour] at h
  | b2 :: b3 :: b4 :: bs4 =>
    simp only [utf8DecodeFour] at h
    split_ifs at h with hc
    simp only [Option.some.injEq, Prod.mk.injEq] at h
    obtain ⟨rfl, rfl⟩ := h
    simp only [utf8EncodeCp]
    rw [if_neg (by omega), if_neg (by omega), if_neg (by omega)]
    simp only [List.cons_append, List.nil_append, List.cons.injEq]
    exact ⟨by omega, by omega, by omega, by omega, trivial⟩

theorem utf8DecodeOne_spec (bs : List Nat) (c : Nat) (rest : List Nat)
    (h : utf8DecodeOne bs = some (c, rest)) :
    utf8EncodeCp c ++ rest = bs := by
  match bs with
  | [] => simp [utf8DecodeOne] at h
  | b :: bs1 =>
    simp only [utf8DecodeOne] at h
    split_ifs at h with h1 h2 h3 h4 h5
    · simp only [Option.some.injEq, Prod.mk.injEq] at h
      obtain ⟨rfl, rfl⟩ := h
      simp only [utf8EncodeCp, if_pos h1, List.cons_append, List.nil_append]
    · exact utf8DecodeTwo_spec b bs1 c rest (by omega) (by omega) h
    · exact utf8DecodeThree_spec b bs1 c rest (by omega) (by omega) h
    · exact utf8DecodeFour_spec b bs1 c rest (by omega) (by omega) h

theorem utf8DecodeAux_encode (fuel : Nat) :
    ∀ (bs : List Nat) (cs : List Nat), utf8DecodeAux fuel bs = some cs → utf8Encode cs = bs := by
  induction fuel with
  | zero =>
    intro bs cs h
    match bs with
    | [] =>
      simp only [utf8DecodeAux, Option.some.injEq] at h
      subst h; rfl
    | b :: bs1 => simp [utf8DecodeAux] at h
  | succ fuel ih =>
    intro bs cs h
    match bs with
    | [] =>
      simp only [utf8DecodeAux, Option.some.injEq] at h
      subst h; rfl
    | b :: bs1 =>
      cases hone : utf8DecodeOne (b :: bs1) with
      | none => simp [utf8DecodeAux, hone] at h
      | some cr =>
        obtain ⟨c, rest⟩ := cr
        simp only [utf8DecodeAux, hone, Option.map_eq_some'] at h
        obtain ⟨cs1, hdec, hcs⟩ := h
        subst hcs
        have henc := utf8DecodeOne_spec (b :: bs1) c rest hone
        calc utf8Encode (c :: cs1) = utf8EncodeCp c ++ utf8Encode cs1 := rfl
          _ = utf8EncodeCp c ++ rest := by rw [ih rest cs1 hdec]
          _ = b :: bs1 := henc

/-- A byte list that strict-decodes to `cs` is exactly the UTF-8 encoding of
`cs`: successful `read_to_string` results determine the on-disk bytes. -/
theorem utf8Decode_encode (bs : List Nat) (cs : List Nat)
    (h : utf8Decode bs = some cs) : utf8Encode cs = bs :=
  utf8DecodeAux_encode bs.length bs cs h

end Skriv

namespace Skriv

/-! ## Launcher installer (`install_cli`, lib.rs lines 5–43)

The macOS build of `install_cli`:
  - reads `/usr/local/bin/skriv` with `std::fs::read_to_string` and returns
    `Ok("already_installed")` when the contents equal the expected launcher
    script literal (lines 12–17);
  - otherwise runs, through `osascript -e "do shell script \"...\" with
    administrator privileges"`, the shell command
    `printf '<script_content>' > <path> && chmod +x <path>` (lines 19–30);
  - returns `Ok("installed")` on success, `Err(stderr)` when the elevated
    command reports failure, and `Err(e.to_string())` when `osascript`
    cannot be spawned (lines 30–37).

`script_content` below is the runtime value of the Rust literal on line 10
(Rust's `\\n` and `\\\"` escapes resolved: the backslashes are literal
characters here).  `expected_content_str` is the literal compared against on
line 14 (real newlines and quotes).  The bytes actually written are obtained
by pushing `script_content` through the layers the code uses: the
AppleScript string literal parser (`osascript` receives the command inside
`"..."`), the shell's single-quote extraction (`printf '<arg>'`), and
`printf`'s own escape expansion. -/

def install_path : String := "/usr/local/bin/skriv"

def script_content : List Char :=
  ("#!/bin/sh\\n/Applications/skriv.app/Contents/MacOS/app \\\"$@\\\" &\\n").toList

def expected_content_str : String :=
  "#!/bin/sh\n/Applications/skriv.app/Contents/MacOS/app \"$@\" &\n"

/-- Unicode scalar values of a string. -/
def strCps (s : String) : List Nat := s.toList.map Char.toNat

/-- The content the pre-check on line 14 compares against, as scalar values. -/
def expected_content : List Nat := strCps expected_content_str

/-- AppleScript string-literal escapes: `\n`, `\r`, `\t` map to control
characters; any other escaped character (quote, backslash) stands for
itself. -/
def applescriptEscChar (c : Char) : Char :=
  if c = 'n' then '\n' else if c = 'r' then '\r' else if c = 't' then '\t' else c

def applescriptUnescape : List Char → List Char
  | [] => []
  | [c] => [c]
  | c :: c2 :: rest =>
    if c = '\\' then applescriptEscChar c2 :: applescriptUnescape rest
    else c :: applescriptUnescape (c2 :: rest)

/-- POSIX `printf` format-string escapes (`\a \b \f \n \r \t \v`); an escaped
backslash stands for itself.  (Octal escapes are not modelled; the input fed
to `printf` here contains no backslashes at all.) -/
def printfEscChar (c : Char) : Char :=
  if c = 'n' then '\n' else if c = 't' then '\t' else if c = 'r' then '\r'
  else if c = 'a' then Char.ofNat 7 else if c = 'b' then Char.ofNat 8
  else if c = 'f' then Char.ofNat 12 else if c = 'v' then Char.ofNat 11
  else c

def printfExpand : List Char → List Char
  | [] => []
  | [c] => [c]
  | c :: c2 :: rest =>
    if c = '\\' then printfEscChar c2 :: printfExpand rest
    else c :: printfExpand (c2 :: rest)

/-- The single-quote character. -/
def squote : Char := Char.ofNat 39

/-- The first single-quoted word of a `sh -c` command line (the argument
`printf` receives; single-quoted text is taken literally by the shell). -/
def shellSingleQuoteArg (cmd : List Char) : List Char :=
  ((cmd.dropWhile (fun c => c != squote)).drop 1).takeWhile (fun c => c != squote)

/-- The shell command built by `format!` on lines 19–22, as it appears inside
the AppleScript string literal. -/
def privilegedCmd : List Char :=
  ("printf ").toList ++ [squote] ++ script_content ++ [squote] ++
    (" > ").toList ++ install_path.toList ++
    (" && chmod +x ").toList ++ install_path.toList

/-- The scalar values `printf` writes to the install path when the elevated
command succeeds. -/
def writtenContent : List Nat :=
  (printfExpand (shellSingleQuoteArg (applescriptUnescape privilegedCmd))).map Char.toNat

/-- The bytes on disk after a successful privileged write. -/
def installedBytes : List Nat := utf8Encode writtenContent

/-- State of the single path the installer touches (`/usr/local/bin/skriv`):
the raw bytes (or `none` when absent), whether the process may read the
file, and its executable bit. -/
structure FsState where
  file : Option (List Nat)
  readable : Bool
  executable : Bool
deriving DecidableEq

/-- `std::fs::read_to_string` on the install path: fails (`none`) when the
file is absent, unreadable, or not valid UTF-8. -/
def fsReadToString (fs : FsState) : Option (List Nat) :=
  match fs.file with
  | none => none
  | some bytes => if fs.readable then utf8Decode bytes else none

/-- Host outcomes driving one `install_cli` call: whether `osascript` can be
spawned (`.output()`'s `map_err` branch otherwise, carrying
`e.to_string()`), whether the elevated shell command reports success, and
the tool's stderr diagnostic text (`String::from_utf8_lossy` applied). -/
structure InstallEnv where
  spawnOk : Bool
  spawnErr : String
  elevationOk : Bool
  stderrText : String
deriving DecidableEq

instance (α β : Type) [DecidableEq α] [DecidableEq β] : DecidableEq (Except α β) := fun a b =>
  match a, b with
  | Except.ok x, Except.ok y =>
    if h : x = y then isTrue (by rw [h]) else isFalse (fun hh => h (Except.ok.inj hh))
  | Except.error x, Except.error y =>
    if h : x = y then isTrue (by rw [h]) else isFalse (fun hh => h (Except.error.inj hh))
  | Except.ok _, Except.error _ => isFalse (fun hh => Except.noConfusion hh)
  | Except.error _, Except.ok _ => isFalse (fun hh => Except.noConfusion hh)

/-- Observable outcome of one `install_cli` call: the returned
`Result<String, String>`, the resulting filesystem state, the number of
writes to the install path, and the number of privilege-elevation attempts
(`osascript` invocations). -/
structure InstallOutput where
  result : Except String String
  fs : FsState
  writes : Nat
  escalations : Nat
deriving DecidableEq

/-- The fall-through of `install_cli` (lines 19–37): run the elevated
`printf … && chmod …` command and report its outcome. -/
def install_cli_privileged (env : InstallEnv) (fs : FsState) : InstallOutput :=
  if env.spawnOk then
    if env.elevationOk then
      { result := Except.ok ("installed"),
        fs := { file := some installedBytes, readable := true, executable := true },
        writes := 1, escalations := 1 }
    else
      { result := Except.error env.stderrText, fs := fs, writes := 0, escalations := 1 }
  else
    { result := Except.error env.spawnErr, fs := fs, writes := 0, escalations := 1 }

/-- `install_cli` (macOS build, lib.rs lines 5–43). -/
def install_cli (env : InstallEnv) (fs : FsState) : InstallOutput :=
  match fsReadToString fs with
  | some contents =>
    if contents = expected_content then
      { result := Except.ok ("already_installed"), fs := fs, writes := 0, escalations := 0 }
    else install_cli_privileged env fs
  | none => install_cli_privileged env fs

/-- The non-macOS build of `install_cli` (lines 39–42). -/
def install_cli_non_macos : Except String String :=
  Except.error ("CLI installation is only supported on macOS")

/-- The bytes the privileged command writes decode (and hence read back) as
exactly the content the pre-check compares against. -/
theorem writtenContent_eq : writtenContent = expected_content := by decide

theorem utf8Decode_installedBytes : utf8Decode installedBytes = some expected_content := by
  decide

end Skriv

namespace Skriv

/-! ## Installer behaviour: helper lemmas -/

/-- Filesystem state after a successful privileged write: the launcher bytes
are on disk and the `chmod +x` has run (a file created in
`/usr/local/bin` by the elevated shell is readable). -/
def installedFs : FsState :=
  { file := some installedBytes, readable := true, executable := true }

def totalWrites : List InstallOutput → Nat
  | [] => 0
  | o :: rest => o.writes + totalWrites rest

/-- Repeated calls to the installer with the filesystem unchanged between
calls (each call sees the state the previous call left behind). -/
def runInstalls : List InstallEnv → FsState → List InstallOutput
  | [], _ => []
  | e :: es, fs =>
    let o := install_cli e fs
    o :: runInstalls es o.fs

theorem install_cli_privileged_escalations (env : InstallEnv) (fs : FsState) :
    (install_cli_privileged env fs).escalations = 1 := by
  unfold install_cli_privileged
  split_ifs <;> rfl

theorem install_cli_privileged_not_already (env : InstallEnv) (fs : FsState) :
    (install_cli_privileged env fs).result ≠ Except.ok ("already_installed") := by
  unfold install_cli_privileged
  split_ifs <;> simp

theorem utf8Decode_encodeExpected :
    utf8Decode (utf8Encode expected_content) = some expected_content := by decide

/-- Every `install_cli` call either leaves the filesystem untouched with no
write, or performs the single privileged write, lands in `installedFs` and
returns `Ok("installed")`. -/
theorem install_cli_cases (env : InstallEnv) (fs : FsState) :
    ((install_cli env fs).writes = 0 ∧ (install_cli env fs).fs = fs ∧
      (install_cli env fs).result ≠ Except.ok ("installed")) ∨
    ((install_cli env fs).writes = 1 ∧ (install_cli env fs).fs = installedFs ∧
      (install_cli env fs).result = Except.ok ("installed")) := by
  unfold install_cli install_cli_privileged
  cases h : fsReadToString fs with
  | none => split_ifs <;> simp [installedFs]
  | some contents =>
    by_cases hce : contents = expected_content <;> split_ifs <;> simp [hce, installedFs]

theorem install_cli_installed_fs (env : InstallEnv) (fs : FsState)
    (h : (install_cli env fs).result = Except.ok ("installed")) :
    (install_cli env fs).fs = installedFs := by
  rcases install_cli_cases env fs with ⟨_, _, hne⟩ | ⟨_, hfs, _⟩
  · exact absurd h hne
  · exact hfs

/-- On the already-installed state the check passes: no write, no prompt. -/
theorem install_cli_already (env : InstallEnv) :
    install_cli env installedFs =
      { result := Except.ok ("already_installed"), fs := installedFs,
        writes := 0, escalations := 0 } := by
  have hread : fsReadToString installedFs = some expected_content := by decide
  simp [install_cli, hread]

theorem install_cli_skip_check (env : InstallEnv) (fs : FsState)
    (h : fsReadToString fs = none) :
    install_cli env fs = install_cli_privileged env fs := by
  unfold install_cli
  rw [h]

theorem install_cli_mismatch (env : InstallEnv) (fs : FsState) (contents : List Nat)
    (h : fsReadToString fs = some contents) (hne : contents ≠ expected_content) :
    install_cli env fs = install_cli_privileged env fs := by
  unfold install_cli
  rw [h]
  simp [hne]

theorem runInstalls_installed (es : List InstallEnv) :
    ∀ o ∈ runInstalls es installedFs,
      o = { result := Except.ok ("already_installed"), fs := installedFs,
            writes := 0, escalations := 0 } := by
  induction es with
  | nil => intro o ho; simp [runInstalls] at ho
  | cons e es ih =>
    intro o ho
    simp only [runInstalls, install_cli_already, List.mem_cons] at ho
    rcases ho with ho | ho
    · exact ho
    · exact ih o ho

theorem totalWrites_installed (es : List InstallEnv) :
    totalWrites (runInstalls es installedFs) = 0 := by
  induction es with
  | nil => rfl
  | cons e es ih => simp [runInstalls, install_cli_already, totalWrites, ih]

theorem totalWrites_le_one (es : List InstallEnv) (fs : FsState) :
    totalWrites (runInstalls es fs) ≤ 1 := by
  induction es generalizing fs with
  | nil => simp [runInstalls, totalWrites]
  | cons e es ih =>
    simp only [runInstalls, totalWrites]
    rcases install_cli_cases e fs with ⟨h0, hfs, _⟩ | ⟨h1, hfs, _⟩
    · rw [h0, hfs]
      simpa using ih fs
    · rw [h1, hfs, totalWrites_installed]

theorem runInstalls_after_installed (es : List InstallEnv) :
    ∀ (fs : FsState) (pre : List InstallOutput) (o : InstallOutput)
      (post : List InstallOutput),
      runInstalls es fs = pre ++ o :: post → o.result = Except.ok ("installed") →
      ∀ o2 ∈ post, o2.result = Except.ok ("already_installed") ∧ o2.writes = 0 := by
  induction es with
  | nil =>
    intro fs pre o post h _
    cases pre <;> simp [runInstalls] at h
  | cons e es ih =>
    intro fs pre o post h hres
    cases pre with
    | nil =>
      simp only [runInstalls, List.nil_append] at h
      injection h with ho hpost
      intro o2 ho2
      rw [← hpost] at ho2
      rw [← ho] at hres
      have hfs := install_cli_installed_fs e fs hres
      rw [hfs] at ho2
      rw [runInstalls_installed es o2 ho2]
      exact ⟨rfl, rfl⟩
    | cons p pre2 =>
      simp only [runInstalls, List.cons_append] at h
      injection h with hp hrest
      exact ih (install_cli e fs).fs pre2 o post hrest hres

end Skriv

namespace Skriv

/-! ## Installer claims -/

/-- An environment in which `osascript` spawns and the elevated command
succeeds. -/
def envGrant : InstallEnv :=
  { spawnOk := true, spawnErr := "", elevationOk := true, stderrText := "" }

/-- No file at the install path. -/
def fsAbsent : FsState := { file := none, readable := true, executable := false }

/-- A file whose bytes are exactly the expected script but which the
process cannot read. -/
def fsUnreadableExact : FsState :=
  { file := some (utf8Encode expected_content), readable := false, executable := true }

/-- A readable file whose single byte differs from the expected script. -/
def fsZero : FsState := { file := some [0], readable := true, executable := false }

/-- A readable file whose bytes are not valid UTF-8. -/
def fsNonUtf8 : FsState := { file := some [0xFF], readable := true, executable := false }

def outInstalled : InstallOutput :=
  { result := Except.ok ("installed"), fs := installedFs, writes := 1, escalations := 1 }

def outAlready : InstallOutput :=
  { result := Except.ok ("already_installed"), fs := installedFs,
    writes := 0, escalations := 0 }

/-- C1 Installer idempotence: over any sequence of `install_cli` calls with
the filesystem unchanged between calls, at most one call performs a write;
the script written by the privileged command is byte-identical to the
content the pre-check compares against; and every call after one that
returns `Ok("installed")` returns `Ok("already_installed")` and performs
zero writes. -/
theorem installer_idempotent (envs : List InstallEnv) (fs : FsState) :
    totalWrites (runInstalls envs fs) ≤ 1 ∧
    writtenContent = expected_content ∧
    ∀ pre o post, runInstalls envs fs = pre ++ o :: post →
      o.result = Except.ok ("installed") →
      ∀ o2 ∈ post, o2.result = Except.ok ("already_installed") ∧ o2.writes = 0 :=
  ⟨totalWrites_le_one envs fs, writtenContent_eq,
   fun pre o post h hres => runInstalls_after_installed envs fs pre o post h hres⟩

/-- C1 witness: two granted calls starting from an absent file — the run
performs one write and the call after the successful write reports
already-installed with zero writes. -/
theorem installer_idempotent_witness :
    totalWrites (runInstalls [envGrant, envGrant] fsAbsent) ≤ 1 ∧
    (outAlready.result = Except.ok ("already_installed") ∧ outAlready.writes = 0) :=
  ⟨(installer_idempotent [envGrant, envGrant] fsAbsent).1,
   (installer_idempotent [envGrant, envGrant] fsAbsent).2.2 [] outInstalled [outAlready]
     (by decide) (by decide) outAlready (List.mem_singleton.mpr rfl)⟩

/-- C2 (amended) Content-equality gate: for a file the process can read,
byte-identical content yields `Ok("already_installed")` with no write and
no privilege-elevation attempt; content differing in even one byte — or an
absent file — makes the installer attempt the privileged write.  (The
readability proviso is forced by the code: `read_to_string` failure skips
the gate, see the counterexample and C10.) -/
theorem content_equality_gate (env : InstallEnv) (fs : FsState) :
    (∀ b, fs.file = some b → fs.readable = true → b = utf8Encode expected_content →
      install_cli env fs =
        { result := Except.ok ("already_installed"), fs := fs,
          writes := 0, escalations := 0 }) ∧
    (∀ b, fs.file = some b → b ≠ utf8Encode expected_content →
      (install_cli env fs).escalations = 1 ∧
      (install_cli env fs).result ≠ Except.ok ("already_installed")) ∧
    (fs.file = none →
      (install_cli env fs).escalations = 1 ∧
      (install_cli env fs).result ≠ Except.ok ("already_installed")) := by
  refine ⟨?_, ?_, ?_⟩
  · intro b hfile hread hb
    have hrts : fsReadToString fs = some expected_content := by
      unfold fsReadToString
      rw [hfile, hb, hread]
      simp [utf8Decode_encodeExpected]
    simp [install_cli, hrts]
  · intro b hfile hb
    have hpriv : install_cli env fs = install_cli_privileged env fs := by
      cases hrts : fsReadToString fs with
      | none => exact install_cli_skip_check env fs hrts
      | some contents =>
        refine install_cli_mismatch env fs contents hrts ?_
        intro hce
        apply hb
        subst hce
        unfold fsReadToString at hrts
        rw [hfile] at hrts
        split_ifs at hrts with hr
        exact (utf8Decode_encode b expected_content hrts).symm
    rw [hpriv]
    exact ⟨install_cli_privileged_escalations env fs,
           install_cli_privileged_not_already env fs⟩
  · intro hfile
    have hrts : fsReadToString fs = none := by
      unfold fsReadToString
      rw [hfile]
    rw [install_cli_skip_check env fs hrts]
    exact ⟨install_cli_privileged_escalations env fs,
           install_cli_privileged_not_already env fs⟩

/-- C2 counterexample: a file at the install path whose bytes are
byte-identical to the expected launcher script, but which the process
cannot read — `install_cli` escalates privileges, performs a write, and
does not report already-installed, contradicting the claim as stated. -/
theorem content_equality_gate_counterexample :
    fsUnreadableExact.file = some (utf8Encode expected_content) ∧
    (install_cli envGrant fsUnreadableExact).escalations = 1 ∧
    (install_cli envGrant fsUnreadableExact).writes = 1 ∧
    (install_cli envGrant fsUnreadableExact).result ≠ Except.ok ("already_installed") := by
  decide

/-- C2 witness: the already-installed state satisfies the equal branch, and
a one-byte file satisfies the differing branch. -/
theorem content_equality_gate_witness :
    install_cli envGrant installedFs =
      { result := Except.ok ("already_installed"), fs := installedFs,
        writes := 0, escalations := 0 } ∧
    (install_cli envGrant fsZero).escalations = 1 :=
  ⟨(content_equality_gate envGrant installedFs).1 installedBytes rfl rfl (by decide),
   ((content_equality_gate envGrant fsZero).2.1 [0] rfl (by decide)).1⟩

/-- C9 Installer result reporting: every call returns already-installed,
installed, or a failure; a failure carries verbatim either the elevated
tool's stderr text or the spawn error's own message. -/
theorem install_result_reporting (env : InstallEnv) (fs : FsState) :
    (install_cli env fs).result = Except.ok ("already_installed") ∨
    (install_cli env fs).result = Except.ok ("installed") ∨
    (install_cli env fs).result = Except.error env.stderrText ∨
    (install_cli env fs).result = Except.error env.spawnErr := by
  unfold install_cli install_cli_privileged
  cases h : fsReadToString fs with
  | none => split_ifs <;> simp
  | some contents =>
    by_cases hce : contents = expected_content <;> split_ifs <;> simp [hce]

/-- C10 Unreadable or non-UTF-8 files skip the equality gate: whenever the
file at the install path cannot be read or its bytes are not valid UTF-8,
`install_cli` proceeds to the privileged overwrite — even when the raw
bytes equal the expected script. -/
theorem unreadable_skips_gate (env : InstallEnv) (fs : FsState) (b : List Nat)
    (hfile : fs.file = some b) (h : fs.readable = false ∨ utf8Decode b = none) :
    (install_cli env fs).escalations = 1 ∧
    (install_cli env fs).result ≠ Except.ok ("already_installed") := by
  have hrts : fsReadToString fs = none := by
    unfold fsReadToString
    rw [hfile]
    rcases h with h | h
    · rw [h]; simp
    · split_ifs <;> simp [h]
  rw [install_cli_skip_check env fs hrts]
  exact ⟨install_cli_privileged_escalations env fs,
         install_cli_privileged_not_already env fs⟩

/-- C10 witness: an unreadable file holding exactly the expected bytes, and
a readable file holding an invalid UTF-8 byte, both trigger the privileged
path. -/
theorem unreadable_skips_gate_witness :
    ((install_cli envGrant fsUnreadableExact).escalations = 1 ∧
      (install_cli envGrant fsUnreadableExact).result ≠ Except.ok ("already_installed")) ∧
    ((install_cli envGrant fsNonUtf8).escalations = 1 ∧
      (install_cli envGrant fsNonUtf8).result ≠ Except.ok ("already_installed")) :=
  ⟨unreadable_skips_gate envGrant fsUnreadableExact (utf8Encode expected_content) rfl
     (Or.inl rfl),
   unreadable_skips_gate envGrant fsNonUtf8 [0xFF] rfl (Or.inr (by decide))⟩

end Skriv

namespace Skriv

/-! ## Events, single-instance coordinator, startup argument broker -/

/-- Payload of an emitted application event: menu events carry `()`, the
`open-files` event carries the forwarded `(args, cwd)` pair. -/
inductive EventPayload
  | unit
  | argsCwd (args : List String) (cwd : String)
deriving DecidableEq

structure UiEvent where
  name : String
  payload : EventPayload
deriving DecidableEq

/-- Host outcomes driving one invocation of the single-instance closure:
whether `app.emit` succeeds, whether `get_webview_window("main")` finds the
window, and the outcomes of `unminimize` / `set_focus`. -/
structure ForwardEnv where
  emitOk : Bool
  windowPresent : Bool
  unminimizeOk : Bool
  setFocusOk : Bool
deriving DecidableEq

/-- One observable step taken by the single-instance closure, in order. -/
inductive CoordAction
  | emitAttempt (e : UiEvent)
  | windowLookup (found : Bool)
  | unminimizeAttempt (ok : Bool)
  | setFocusAttempt (ok : Bool)
deriving DecidableEq

/-- The `tauri_plugin_single_instance` closure (lib.rs lines 59–65):
`let _ = app.emit("open-files", (args, cwd));` then, if the main window is
found, `let _ = w.unminimize(); let _ = w.set_focus();`.  Every result is
discarded (`let _ =`), so the closure is total.  Returns the ordered trace
of attempts and the list of events actually delivered to the UI layer. -/
def singleInstanceHandler (env : ForwardEnv) (args : List String) (cwd : String) :
    List CoordAction × List UiEvent :=
  let e : UiEvent := { name := "open-files", payload := EventPayload.argsCwd args cwd }
  let delivered := if env.emitOk then [e] else []
  let winTrace :=
    if env.windowPresent then
      [CoordAction.windowLookup true, CoordAction.unminimizeAttempt env.unminimizeOk,
       CoordAction.setFocusAttempt env.setFocusOk]
    else [CoordAction.windowLookup false]
  (CoordAction.emitAttempt e :: winTrace, delivered)

def isEmitAttempt : CoordAction → Bool
  | CoordAction.emitAttempt _ => true
  | _ => false

/-- The window-related part of a coordinator trace. -/
def windowActions (t : List CoordAction) : List CoordAction :=
  t.filter (fun a => !isEmitAttempt a)

/-- The state managed at startup (lib.rs lines 45–48). -/
structure CliArgs where
  args : List String
  cwd : String
deriving DecidableEq

/-- `get_cli_args` (lib.rs lines 50–54): lock the mutex, clone both fields
and return them; the stored state is left unchanged (returned as the second
component). -/
def get_cli_args (state : CliArgs) : (List String × String) × CliArgs :=
  ((state.args, state.cwd), state)

/-- The capture in `run` (lib.rs lines 70–76): `std::env::args().collect()`
and `current_dir().unwrap_or_default().to_string_lossy().into_owned()`.
A failed working-directory query yields the default (empty) path, hence the
empty string; `none` models that failure. -/
def captureCliArgs (osArgs : List String) (osCwd : Option String) : CliArgs :=
  { args := osArgs, cwd := osCwd.getD ("") }

/-! ## Menu command router (lib.rs lines 78–146) -/

/-- The `on_menu_event` closure (lib.rs lines 131–146): match on the menu
identifier; a known identifier emits one payload-free event, anything else
falls to `_ => {}`.  Returns the emissions performed. -/
def on_menu_event : String → List UiEvent
  | "command_palette" => [{ name := "menu-command-palette", payload := EventPayload.unit }]
  | "word_wrap" => [{ name := "menu-word-wrap", payload := EventPayload.unit }]
  | "toggle_comment" => [{ name := "menu-toggle-comment", payload := EventPayload.unit }]
  | "new_tab" => [{ name := "menu-new-tab", payload := EventPayload.unit }]
  | "open_file" => [{ name := "menu-open-file", payload := EventPayload.unit }]
  | "save_file" => [{ name := "menu-save-file", payload := EventPayload.unit }]
  | "save_file_as" => [{ name := "menu-save-file-as", payload := EventPayload.unit }]
  | "format_document" => [{ name := "menu-format-document", payload := EventPayload.unit }]
  | "column_selection" => [{ name := "menu-column-selection", payload := EventPayload.unit }]
  | "toggle_theme" => [{ name := "menu-toggle-theme", payload := EventPayload.unit }]
  | _ => []

/-- The identifier-to-event mapping as the specification states it (one
outbound event per custom menu item). -/
def menuEventMap : List (String × String) :=
  [("command_palette", "menu-command-palette"),
   ("word_wrap", "menu-word-wrap"),
   ("toggle_comment", "menu-toggle-comment"),
   ("new_tab", "menu-new-tab"),
   ("open_file", "menu-open-file"),
   ("save_file", "menu-save-file"),
   ("save_file_as", "menu-save-file-as"),
   ("format_document", "menu-format-document"),
   ("column_selection", "menu-column-selection"),
   ("toggle_theme", "menu-toggle-theme")]

/-- A native menu item as registered with the host: a custom item created by
`MenuItem::with_id(app, id, label, enabled, accel)` or a host-provided
predefined item. -/
inductive MenuItemSpec
  | custom (id : String) (label : String) (accel : Option String)
  | predefined (kind : String)
deriving DecidableEq

structure SubmenuSpec where
  title : String
  items : List MenuItemSpec
deriving DecidableEq

/-- Whether the host's menu constructors succeed (the `?` operators on
lib.rs lines 79–129 propagate host failures). -/
structure HostEnv where
  menuOk : Bool
deriving DecidableEq

/-- `MenuItem::with_id`: a host constructor.  It records the requested item
verbatim and performs no validation against the router's event mapping —
the mapping lives only in the `on_menu_event` closure. -/
def menuItemWithId (host : HostEnv) (id label : String) (accel : Option String) :
    Except String MenuItemSpec :=
  if host.menuOk then Except.ok (MenuItemSpec.custom id label accel)
  else Except.error ("menu host failure")

/-- `PredefinedMenuItem::*` constructors (about, separator, services, …). -/
def predefinedMenuItem (host : HostEnv) (kind : String) : Except String MenuItemSpec :=
  if host.menuOk then Except.ok (MenuItemSpec.predefined kind)
  else Except.error ("menu host failure")

/-- `Submenu::with_items`. -/
def submenuWithItems (host : HostEnv) (title : String) (items : List MenuItemSpec) :
    Except String SubmenuSpec :=
  if host.menuOk then Except.ok { title := title, items := items }
  else Except.error ("menu host failure")

/-- `Menu::with_items`. -/
def menuWithItems (host : HostEnv) (subs : List SubmenuSpec) :
    Except String (List SubmenuSpec) :=
  if host.menuOk then Except.ok subs else Except.error ("menu host failure")

/-- The fixed menu built in `setup` (lib.rs lines 79–129), submenu by
submenu and item by item in source order. -/
def setupMenu (host : HostEnv) : Except String (List SubmenuSpec) := do
  let app_menu ← submenuWithItems host ("skriv")
    [← predefinedMenuItem host ("about"), ← predefinedMenuItem host ("separator"),
     ← predefinedMenuItem host ("services"), ← predefinedMenuItem host ("separator"),
     ← predefinedMenuItem host ("hide"), ← predefinedMenuItem host ("hide_others"),
     ← predefinedMenuItem host ("show_all"), ← predefinedMenuItem host ("separator"),
     ← predefinedMenuItem host ("quit")]
  let file_menu ← submenuWithItems host ("File")
    [← menuItemWithId host ("new_tab") ("New Tab") (some ("CmdOrCtrl+N")),
     ← menuItemWithId host ("open_file") ("Open...") (some ("CmdOrCtrl+O")),
     ← predefinedMenuItem host ("separator"),
     ← menuItemWithId host ("save_file") ("Save") (some ("CmdOrCtrl+S")),
     ← menuItemWithId host ("save_file_as") ("Save As...") (some ("CmdOrCtrl+Shift+S")),
     ← predefinedMenuItem host ("separator"),
     ← predefinedMenuItem host ("close_window")]
  let edit_menu ← submenuWithItems host ("Edit")
    [← predefinedMenuItem host ("undo"), ← predefinedMenuItem host ("redo"),
     ← predefinedMenuItem host ("separator"),
     ← predefinedMenuItem host ("cut"), ← predefinedMenuItem host ("copy"),
     ← predefinedMenuItem host ("paste"), ← predefinedMenuItem host ("select_all"),
     ← predefinedMenuItem host ("separator"),
     ← menuItemWithId host ("toggle_comment") ("Toggle Comment") (some ("CmdOrCtrl+Shift+C")),
     ← menuItemWithId host ("format_document") ("Format Document") (some ("CmdOrCtrl+Shift+F")),
     ← menuItemWithId host ("column_selection") ("Column Selection") none]
  let command_palette ← menuItemWithId host ("command_palette") ("Command Palette")
    (some ("Super+Shift+P"))
  let word_wrap ← menuItemWithId host ("word_wrap") ("Word Wrap") (some ("Alt+Z"))
  let toggle_theme ← menuItemWithId host ("toggle_theme") ("Toggle Theme") none
  let view_menu ← submenuWithItems host ("View")
    [command_palette, ← predefinedMenuItem host ("separator"), word_wrap, toggle_theme,
     ← predefinedMenuItem host ("separator"), ← predefinedMenuItem host ("fullscreen")]
  let window_menu ← submenuWithItems host ("Window")
    [← predefinedMenuItem host ("minimize"), ← predefinedMenuItem host ("maximize")]
  let help_menu ← submenuWithItems host ("Help") []
  menuWithItems host [app_menu, file_menu, edit_menu, view_menu, window_menu, help_menu]

def customIdsOfItems : List MenuItemSpec → List String
  | [] => []
  | MenuItemSpec.custom id _ _ :: rest => id :: customIdsOfItems rest
  | MenuItemSpec.predefined _ :: rest => customIdsOfItems rest

def customIdsOfMenu : List SubmenuSpec → List String
  | [] => []
  | sb :: rest => customIdsOfItems sb.items ++ customIdsOfMenu rest

def exceptIsOk : Except String (List SubmenuSpec) → Bool
  | Except.ok _ => true
  | Except.error _ => false

/-- Custom identifiers registered by a (successful) menu build. -/
def menuCustomIds : Except String (List SubmenuSpec) → List String
  | Except.ok subs => customIdsOfMenu subs
  | Except.error _ => []

/-- A menu build that registers a custom item whose identifier has no
mapped outbound event. -/
def bogusMenuBuild : Except String (List SubmenuSpec) := do
  let sub ← submenuWithItems { menuOk := true } ("File")
    [← menuItemWithId { menuOk := true } ("bogus_item") ("Bogus") none]
  menuWithItems { menuOk := true } [sub]

/-! ## Whole-backend step machine

The pieces of state the backend owns and the operations that touch them,
used to state that nothing ever mutates the stored launch context. -/

structure SysState where
  cli : CliArgs
  fs : FsState
  delivered : List UiEvent
deriving DecidableEq

inductive SysOp
  | opGetCliArgs
  | opInstallCli (env : InstallEnv)
  | opMenuEvent (id : String)
  | opSecondaryLaunch (env : ForwardEnv) (args : List String) (cwd : String)

def sysStep (op : SysOp) (s : SysState) : SysState :=
  match op with
  | SysOp.opGetCliArgs => { s with cli := (get_cli_args s.cli).2 }
  | SysOp.opInstallCli env => { s with fs := (install_cli env s.fs).fs }
  | SysOp.opMenuEvent id => { s with delivered := s.delivered ++ on_menu_event id }
  | SysOp.opSecondaryLaunch env args cwd =>
    { s with delivered := s.delivered ++ (singleInstanceHandler env args cwd).2 }

def runSys : List SysOp → SysState → SysState
  | [], s => s
  | op :: ops, s => runSys ops (sysStep op s)

/-- Process state right after `run`'s `.manage(...)` call (lib.rs 70–76). -/
def initState (osArgs : List String) (osCwd : Option String) (fs : FsState) : SysState :=
  { cli := captureCliArgs osArgs osCwd, fs := fs, delivered := [] }

end Skriv

namespace Skriv

/-! ## Coordinator, broker and router claims -/

theorem sysStep_cli (op : SysOp) (s : SysState) : (sysStep op s).cli = s.cli := by
  cases op <;> rfl

theorem runSys_cli (ops : List SysOp) : ∀ s : SysState, (runSys ops s).cli = s.cli := by
  induction ops with
  | nil => intro s; rfl
  | cons op ops ih => intro s; rw [runSys, ih, sysStep_cli]

/-- C3 Launch-context stability: after any sequence of backend operations,
`get_cli_args` still returns the pair captured at process start, the stored
`CliArgs` record equals the captured one, and no single operation mutates
it. -/
theorem launch_context_stable (ops : List SysOp) (osArgs : List String)
    (osCwd : Option String) (fs : FsState) :
    (get_cli_args (runSys ops (initState osArgs osCwd fs)).cli).1 =
      (osArgs, osCwd.getD ("")) ∧
    (runSys ops (initState osArgs osCwd fs)).cli = captureCliArgs osArgs osCwd ∧
    ∀ (op : SysOp) (s : SysState), (sysStep op s).cli = s.cli := by
  refine ⟨?_, ?_, sysStep_cli⟩
  · rw [runSys_cli]; rfl
  · rw [runSys_cli]; rfl

/-- C4 The launch-context query is total and side-effect free: it returns a
copy of the stored pair and leaves the state unchanged, and a failed OS
working-directory query at capture time is stored as the default empty
string and never surfaces as an error of the query. -/
theorem get_cli_args_total_pure (c : CliArgs) (osArgs : List String) :
    get_cli_args c = ((c.args, c.cwd), c) ∧
    captureCliArgs osArgs none = { args := osArgs, cwd := "" } ∧
    (get_cli_args (captureCliArgs osArgs none)).1 = (osArgs, "") :=
  ⟨rfl, rfl, rfl⟩

/-- C5 Forwarding fidelity: the coordinator makes exactly one `open-files`
emission attempt, whose payload is exactly the forwarded `(args, cwd)` pair,
and when emission succeeds exactly that event is delivered, untransformed. -/
theorem forwarding_fidelity (env : ForwardEnv) (args : List String) (cwd : String) :
    (singleInstanceHandler env args cwd).1.filter isEmitAttempt =
      [CoordAction.emitAttempt
        { name := "open-files", payload := EventPayload.argsCwd args cwd }] ∧
    (env.emitOk = true →
      (singleInstanceHandler env args cwd).2 =
        [{ name := "open-files", payload := EventPayload.argsCwd args cwd }]) := by
  constructor
  · cases hw : env.windowPresent <;> simp [singleInstanceHandler, hw, isEmitAttempt]
  · intro h; simp [singleInstanceHandler, h]

def fwdEnvAll : ForwardEnv :=
  { emitOk := true, windowPresent := true, unminimizeOk := true, setFocusOk := true }

/-- C5 witness at the specification's example input. -/
theorem forwarding_fidelity_witness :
    (singleInstanceHandler fwdEnvAll ["skriv", "b.txt"] "/tmp").1.filter isEmitAttempt =
      [CoordAction.emitAttempt
        { name := "open-files", payload := EventPayload.argsCwd ["skriv", "b.txt"] "/tmp" }] ∧
    (singleInstanceHandler fwdEnvAll ["skriv", "b.txt"] "/tmp").2 =
      [{ name := "open-files", payload := EventPayload.argsCwd ["skriv", "b.txt"] "/tmp" }] :=
  ⟨(forwarding_fidelity fwdEnvAll ["skriv", "b.txt"] "/tmp").1,
   (forwarding_fidelity fwdEnvAll ["skriv", "b.txt"] "/tmp").2 rfl⟩

/-- C6 Coordinator ordering and failure independence: the `open-files`
emission attempt comes first in the trace; when the main window is found the
unminimize and focus attempts happen with whatever outcomes the host gives;
the delivered events depend only on the emission outcome (never on window
failures); and the window-related trace depends only on the window outcomes
(never on the emission outcome).  The handler is a total function, so no
failure raises or crashes. -/
theorem coordinator_order_independence (env : ForwardEnv) (args : List String)
    (cwd : String) :
    (singleInstanceHandler env args cwd).1.head? =
      some (CoordAction.emitAttempt
        { name := "open-files", payload := EventPayload.argsCwd args cwd }) ∧
    (env.windowPresent = true →
      CoordAction.unminimizeAttempt env.unminimizeOk ∈
        (singleInstanceHandler env args cwd).1 ∧
      CoordAction.setFocusAttempt env.setFocusOk ∈
        (singleInstanceHandler env args cwd).1) ∧
    (∀ env2 : ForwardEnv, env2.emitOk = env.emitOk →
      (singleInstanceHandler env2 args cwd).2 = (singleInstanceHandler env args cwd).2) ∧
    (∀ env2 : ForwardEnv, env2.windowPresent = env.windowPresent →
      env2.unminimizeOk = env.unminimizeOk → env2.setFocusOk = env.setFocusOk →
      windowActions (singleInstanceHandler env2 args cwd).1 =
        windowActions (singleInstanceHandler env args cwd).1) := by
  refine ⟨?_, ?_, ?_, ?_⟩
  · simp [singleInstanceHandler]
  · intro hw
    simp [singleInstanceHandler, hw]
  · intro env2 h
    simp [singleInstanceHandler, h]
  · intro env2 h1 h2 h3
    cases hw : env.windowPresent
    all_goals rw [hw] at h1
    all_goals simp [singleInstanceHandler, windowActions, isEmitAttempt, h1, h2, h3, hw]

def fwdEnvNoEmit : ForwardEnv :=
  { emitOk := false, windowPresent := true, unminimizeOk := false, setFocusOk := false }

def fwdEnvNoEmitNoWin : ForwardEnv :=
  { emitOk := false, windowPresent := false, unminimizeOk := true, setFocusOk := true }

def fwdEnvEmit : ForwardEnv :=
  { emitOk := true, windowPresent := true, unminimizeOk := false, setFocusOk := false }

/-- C6 witness: a failed emission with failing window calls still produces
the emit attempt first and the focus attempts; delivery agrees across window
variations and the window trace agrees across emission variations. -/
theorem coordinator_order_independence_witness :
    (singleInstanceHandler fwdEnvNoEmit ["skriv"] "/").1.head? =
      some (CoordAction.emitAttempt
        { name := "open-files", payload := EventPayload.argsCwd ["skriv"] "/" }) ∧
    (CoordAction.unminimizeAttempt false ∈ (singleInstanceHandler fwdEnvNoEmit ["skriv"] "/").1 ∧
      CoordAction.setFocusAttempt false ∈ (singleInstanceHandler fwdEnvNoEmit ["skriv"] "/").1) ∧
    (singleInstanceHandler fwdEnvNoEmitNoWin ["skriv"] "/").2 =
      (singleInstanceHandler fwdEnvNoEmit ["skriv"] "/").2 ∧
    windowActions (singleInstanceHandler fwdEnvEmit ["skriv"] "/").1 =
      windowActions (singleInstanceHandler fwdEnvNoEmit ["skriv"] "/").1 :=
  ⟨(coordinator_order_independence fwdEnvNoEmit ["skriv"] "/").1,
   (coordinator_order_independence fwdEnvNoEmit ["skriv"] "/").2.1 rfl,
   (coordinator_order_independence fwdEnvNoEmit ["skriv"] "/").2.2.1 fwdEnvNoEmitNoWin rfl,
   (coordinator_order_independence fwdEnvNoEmit ["skriv"] "/").2.2.2 fwdEnvEmit rfl rfl rfl⟩

/-- C7 Menu dispatch correctness: for every activation identifier the router
emits exactly what the fixed identifier-to-event mapping prescribes — one
payload-free event with the mapped `menu-*` name for the ten custom
identifiers, nothing at all for any other identifier. -/
theorem menu_dispatch (id : String) :
    on_menu_event id =
      ((menuEventMap.lookup id).map
        (fun n => [{ name := n, payload := EventPayload.unit }])).getD [] ∧
    (on_menu_event id).length ≤ 1 := by
  constructor
  · unfold on_menu_event
    split <;>
      first
      | (simp_all [menuEventMap, List.lookup]; done)
      | (rename_i h1 h2 h3 h4 h5 h6 h7 h8 h9 h10
         simp [menuEventMap, List.lookup,
               beq_eq_false_iff_ne.mpr h1, beq_eq_false_iff_ne.mpr h2,
               beq_eq_false_iff_ne.mpr h3, beq_eq_false_iff_ne.mpr h4,
               beq_eq_false_iff_ne.mpr h5, beq_eq_false_iff_ne.mpr h6,
               beq_eq_false_iff_ne.mpr h7, beq_eq_false_iff_ne.mpr h8,
               beq_eq_false_iff_ne.mpr h9, beq_eq_false_iff_ne.mpr h10])
  · unfold on_menu_event
    split <;> simp

end Skriv

namespace Skriv

/-- C8 (amended) Menu totality holds statically but is not validated at
build time: the fixed menu build succeeds when the host constructors
succeed, the custom identifiers it registers are exactly the ten of the
mapping, and every one of them has a mapped outbound event with a non-empty
dispatch.  The build itself performs no totality check — an unmapped
identifier would be silently ignored at runtime (see the counterexample). -/
theorem menu_totality_static :
    exceptIsOk (setupMenu { menuOk := true }) = true ∧
    menuCustomIds (setupMenu { menuOk := true }) =
      ["new_tab", "open_file", "save_file", "save_file_as", "toggle_comment",
       "format_document", "column_selection", "command_palette", "word_wrap",
       "toggle_theme"] ∧
    (menuCustomIds (setupMenu { menuOk := true })).all
      (fun id => (menuEventMap.lookup id).isSome && !(on_menu_event id).isEmpty) = true := by
  decide

/-- C8 counterexample: `bogus_item` has no mapped outbound event, yet
building a menu that registers it succeeds — contradicting the claim that
such a build must fail — and activating it is a silent runtime no-op. -/
theorem menu_totality_counterexample :
    menuEventMap.lookup ("bogus_item") = none ∧
    bogusMenuBuild =
      Except.ok
        [{ title := "File",
           items := [MenuItemSpec.custom ("bogus_item") ("Bogus") none] }] ∧
    on_menu_event ("bogus_item") = [] := by
  decide

end Skriv
